import Mathlib

/-!
Verification of the StokWELL ledger core (src/user_manager.py,
src/stokvel_manager.py, src/utils.py).

The Python application state is a nested dictionary
`{"users": {...}, "stokvels": {...}}`; Python dicts are insertion-ordered
maps, embedded here as association lists with first-match lookup (`getA`)
and in-place update / append-if-absent assignment (`setA`), which is
exactly the semantics of `d[k]` and `d[k] = v`.

Monetary amounts are Python floats produced by the front end; they are
embedded as `Rat`.  Every arithmetic the core performs on them (literal 0,
`+`, the left-fold `sum`) is carried out in the same order on both sides
of every balance identity, so the choice of `Rat` over IEEE floats does
not affect any theorem below.

`datetime.now()` is an external clock; each operation that reads it takes
a `Clock` argument carrying the two strings the code derives from it
(`isoformat()` and `strftime` of the same instant).

`hashlib.sha256(...).hexdigest()` (called by `hash_password` in
src/utils.py) is an external library primitive; it is embedded as an
explicit function parameter `hashp : String → String` threaded through
`register_user`, `login_user` and `verify_password`, so theorems can
quantify over the hash function and, where a claim needs
collision-freedom, assume `Function.Injective hashp` (the spec's
"computationally distinct passwords must yield different digests").

Persistence: `save_data` lives in data_manager.py, which is not under
src/.  Modelled from the spec: `save(state)` durably writes the entire
state; an operation records whether it reached a `save_data(data)` call
in the `saved` flag of its result.  A dictionary lookup `d[k]` on an
absent key raises `KeyError` in Python; an operation that does so is
embedded as returning `OpResult.keyError` carrying the (possibly already
partially mutated) state at the point of the raise, with no save.
-/

namespace Stokwell

/-- First-match lookup in an association list: Python `d.get(k)` / `d[k]`. -/
def getA {V : Type} : List (String × V) → String → Option V
  | [], _ => none
  | (k0, v0) :: t, k => if k0 = k then some v0 else getA t k

/-- Assignment `d[k] = v` on an insertion-ordered dict: replace the value at
the first occurrence of `k`, or append `(k, v)` when `k` is absent. -/
def setA {V : Type} : List (String × V) → String → V → List (String × V)
  | [], k, v => [(k, v)]
  | (k0, v0) :: t, k, v => if k0 = k then (k0, v) :: t else (k0, v0) :: setA t k v

theorem getA_setA {V : Type} (l : List (String × V)) (k k' : String) (v : V) :
    getA (setA l k v) k' = if k = k' then some v else getA l k' := by
  induction l with
  | nil => by_cases h : k = k' <;> simp [setA, getA, h]
  | cons hd t ih =>
    obtain ⟨k0, v0⟩ := hd
    by_cases h0 : k0 = k
    · subst h0
      by_cases h : k0 = k' <;> simp [setA, getA, h]
    · by_cases h : k0 = k'
      · subst h
        have hne : ¬ k = k0 := fun h => h0 h.symm
        simp [setA, getA, h0, hne]
      · simp [setA, getA, h0, h, ih]

/-- One entry of `data["users"]`: the dict created by `register_user`. -/
structure User where
  password : String
  balance : Rat
  transactions : List String
  stokvels : List String
deriving DecidableEq

/-- One entry of a stokvel's `"contributions"` list. -/
structure Contribution where
  user : String
  amount : Rat
  date : String
deriving DecidableEq

/-- One entry of `data["stokvels"]`: the dict created by `create_stokvel`. -/
structure Stokvel where
  members : List String
  contributions : List Contribution
  balance : Rat
  created_date : String
  created_by : String
deriving DecidableEq

/-- The application state `{"users": ..., "stokvels": ...}`. -/
structure Data where
  users : List (String × User)
  stokvels : List (String × Stokvel)
deriving DecidableEq

/-- The two strings the code derives from one `datetime.now()` instant:
`isoformat()` and `strftime of a display format`. -/
structure Clock where
  iso : String
  display : String
deriving DecidableEq

/-- The dict returned by `get_stokvel_summary`. -/
structure Summary where
  name : String
  balance : Rat
  total_contributions : Rat
  member_count : Nat
  members : List String
  created_date : String
  created_by : String
deriving DecidableEq

/-- Outcome of a registry operation.  `ok success message state saved`
embeds a normal return of the Python tuple `(success, message)` together
with the state after the call and whether `save_data` was called
(Modelled from the spec: data_manager.save_data is not under src/; the
spec says `save` durably writes the entire state).  `keyError state`
embeds an uncaught Python `KeyError` raised after the mutations already
performed on `state`, with `save_data` never reached. -/
inductive OpResult where
  | ok (success : Bool) (message : String) (state : Data) (saved : Bool)
  | keyError (state : Data)
deriving DecidableEq

def OpResult.state : OpResult → Data
  | .ok _ _ d _ => d
  | .keyError d => d

def OpResult.success : OpResult → Bool
  | .ok b _ _ _ => b
  | .keyError _ => false

def OpResult.saved : OpResult → Bool
  | .ok _ _ _ s => s
  | .keyError _ => false

/-- Whether the operation returned normally (no uncaught fault). -/
def OpResult.isOk : OpResult → Bool
  | .ok _ _ _ _ => true
  | .keyError _ => false

/-- Round a rational to the nearest integer, ties to even — the rounding
Python `format` applies for `.2f`. -/
def rhe (q : Rat) : Int :=
  let f := ⌊q⌋
  let r := q - (f : Rat)
  if r < 1 / 2 then f
  else if 1 / 2 < r then f + 1
  else if f % 2 = 0 then f else f + 1

/-- Two-decimal rendering, as in the Python f-string `{amount:.2f}`. -/
def fmt2 (a : Rat) : String :=
  let c := rhe (a * 100)
  let sign := if c < 0 then "-" else ""
  let n := c.natAbs
  let cents := n % 100
  sign ++ toString (n / 100) ++ "." ++ (if cents < 10 then "0" ++ toString cents else toString cents)

/-- src/utils.py `verify_password`, with the sha256 primitive abstracted
as `hashp`. -/
def verify_password (hashp : String → String) (password hashed : String) : Bool :=
  hashp password == hashed

/-- src/user_manager.py `register_user`. -/
def register_user (hashp : String → String) (d : Data) (username password : String) : OpResult :=
  match getA d.users username with
  | some _ => .ok false "Username already exists!" d false
  | none =>
    .ok true ("User " ++ username ++ " registered successfully!")
      ⟨setA d.users username ⟨hashp password, 0, [], []⟩, d.stokvels⟩ true

/-- src/user_manager.py `login_user`.  (A user dict is a non-empty dict,
so Python `if user and verify_password(...)` is `user is not None and
verify_password(...)`.) -/
def login_user (hashp : String → String) (d : Data) (username password : String) : OpResult :=
  match getA d.users username with
  | some u =>
    if verify_password hashp password u.password then
      .ok true ("Welcome back, " ++ username ++ "!") d false
    else
      .ok false "Invalid credentials." d false
  | none => .ok false "Invalid credentials." d false

/-- src/user_manager.py `update_user_balance` (helper, invoked by no core
operation); returns the Python boolean, the state and the saved flag. -/
def update_user_balance (d : Data) (username : String) (amount : Rat) : Bool × Data × Bool :=
  match getA d.users username with
  | some u =>
    (true, ⟨setA d.users username { u with balance := u.balance + amount }, d.stokvels⟩, true)
  | none => (false, d, false)

/-- src/stokvel_manager.py `create_stokvel`.  The stokvel is inserted
before `data["users"][current_user]` is read, so an unregistered
`current_user` raises `KeyError` with the stokvel already added. -/
def create_stokvel (d : Data) (stokvel_name current_user : String) (ck : Clock) : OpResult :=
  match getA d.stokvels stokvel_name with
  | some _ => .ok false "Stokvel already exists!" d false
  | none =>
    match getA d.users current_user with
    | none =>
      .keyError ⟨d.users, setA d.stokvels stokvel_name ⟨[current_user], [], 0, ck.iso, current_user⟩⟩
    | some u =>
      .ok true ("Stokvel \x27" ++ stokvel_name ++ "\x27 created and you have joined it!")
        ⟨setA d.users current_user { u with stokvels := u.stokvels ++ [stokvel_name] },
         setA d.stokvels stokvel_name ⟨[current_user], [], 0, ck.iso, current_user⟩⟩ true

/-- src/stokvel_manager.py `contribute`.  Note: the source has no check on
`amount`; the balance and contribution mutations precede the user lookup. -/
def contribute (d : Data) (stokvel_name : String) (amount : Rat) (current_user : String) (ck : Clock) : OpResult :=
  match getA d.stokvels stokvel_name with
  | none => .ok false "Stokvel not found." d false
  | some s =>
    if current_user ∈ s.members then
      match getA d.users current_user with
      | none =>
        .keyError ⟨d.users, setA d.stokvels stokvel_name
          { s with balance := s.balance + amount,
                   contributions := s.contributions ++ [⟨current_user, amount, ck.iso⟩] }⟩
      | some u =>
        .ok true ("You contributed R" ++ fmt2 amount ++ " to " ++ stokvel_name ++ ".")
          ⟨setA d.users current_user
            { u with transactions := u.transactions ++
                ["Contributed R" ++ fmt2 amount ++ " to " ++ stokvel_name ++ " on " ++ ck.display] },
           setA d.stokvels stokvel_name
            { s with balance := s.balance + amount,
                     contributions := s.contributions ++ [⟨current_user, amount, ck.iso⟩] }⟩ true
    else .ok false "You are not a member of this stokvel." d false

/-- src/stokvel_manager.py `join_stokvel`.  The member append precedes the
user lookup, so an unregistered `username` raises `KeyError` with the
member list already extended. -/
def join_stokvel (d : Data) (stokvel_name username : String) : OpResult :=
  match getA d.stokvels stokvel_name with
  | none => .ok false "Stokvel not found." d false
  | some s =>
    if username ∈ s.members then .ok false "You are already a member of this stokvel." d false
    else
      match getA d.users username with
      | none =>
        .keyError ⟨d.users, setA d.stokvels stokvel_name { s with members := s.members ++ [username] }⟩
      | some u =>
        .ok true ("You have joined " ++ stokvel_name ++ "!")
          ⟨setA d.users username { u with stokvels := u.stokvels ++ [stokvel_name] },
           setA d.stokvels stokvel_name { s with members := s.members ++ [username] }⟩ true

/-- Python `sum(contrib["amount"] for contrib in stokvel["contributions"])`:
a left fold over the list in order, starting from the integer 0. -/
def sumAmounts (l : List Contribution) : Rat :=
  (l.map Contribution.amount).sum

/-- src/stokvel_manager.py `get_stokvel_summary` (read-only). -/
def get_stokvel_summary (d : Data) (stokvel_name : String) : Option Summary :=
  match getA d.stokvels stokvel_name with
  | none => none
  | some s =>
    some ⟨stokvel_name, s.balance, sumAmounts s.contributions, s.members.length,
          s.members, s.created_date, s.created_by⟩

/-- The state `load_data` yields when no store exists: `{"users": {}, "stokvels": {}}`. -/
def emptyData : Data := ⟨[], []⟩

/-- One invocation of a registry operation with arbitrary arguments,
relating the state before the call to the state after it (the state an
uncaught `KeyError` leaves behind included). -/
inductive Step : Data → Data → Prop where
  | reg (hashp : String → String) (u p : String) (d : Data) :
      Step d (register_user hashp d u p).state
  | login (hashp : String → String) (u p : String) (d : Data) :
      Step d (login_user hashp d u p).state
  | create (n u : String) (ck : Clock) (d : Data) :
      Step d (create_stokvel d n u ck).state
  | join (n u : String) (d : Data) :
      Step d (join_stokvel d n u).state
  | contrib (n : String) (a : Rat) (u : String) (ck : Clock) (d : Data) :
      Step d (contribute d n a u ck).state

/-- States reachable from the empty state by any sequence of registry
operations. -/
def Reachable (d : Data) : Prop :=
  Relation.ReflTransGen Step emptyData d

/-- Every stokvel's balance equals the sum of its contributions' amounts. -/
def BalInvL (st : List (String × Stokvel)) : Prop :=
  ∀ n s, getA st n = some s → s.balance = sumAmounts s.contributions

/-- `u` belongs (as a member) to an existing stokvel named `n`. -/
def refOkB (st : List (String × Stokvel)) (u n : String) : Bool :=
  match getA st n with
  | some s => decide (u ∈ s.members)
  | none => false

/-- Referential consistency: every stokvel name in a user's stokvel set
names an existing stokvel of which the user is a member. -/
def RefInv (d : Data) : Prop :=
  ∀ u usr, getA d.users u = some usr → ∀ n, n ∈ usr.stokvels → refOkB d.stokvels u n = true

/-- Every registered user's personal balance is 0. -/
def ZeroBal (us : List (String × User)) : Prop :=
  ∀ u usr, getA us u = some usr → usr.balance = 0

theorem refOkB_eq_true_iff (st : List (String × Stokvel)) (u n : String) :
    refOkB st u n = true ↔ ∃ s, getA st n = some s ∧ u ∈ s.members := by
  unfold refOkB
  cases h : getA st n <;> simp

theorem refOkB_setA (st : List (String × Stokvel)) (n : String) (s1 : Stokvel) (u m : String) :
    refOkB (setA st n s1) u m = if n = m then decide (u ∈ s1.members) else refOkB st u m := by
  unfold refOkB
  rw [getA_setA]
  by_cases h : n = m <;> simp [h]

theorem sumAmounts_append (l : List Contribution) (c : Contribution) :
    sumAmounts (l ++ [c]) = sumAmounts l + c.amount := by
  simp [sumAmounts]

theorem BalInvL_setA (st : List (String × Stokvel)) (n : String) (s1 : Stokvel)
    (h : BalInvL st) (h1 : s1.balance = sumAmounts s1.contributions) : BalInvL (setA st n s1) := by
  intro m t hm
  rw [getA_setA] at hm
  split at hm
  · cases hm
    exact h1
  · exact h m t hm

theorem ZeroBal_setA (us : List (String × User)) (u : String) (u1 : User)
    (h : ZeroBal us) (h1 : u1.balance = 0) : ZeroBal (setA us u u1) := by
  intro v usr hv
  rw [getA_setA] at hv
  split at hv
  · cases hv
    exact h1
  · exact h v usr hv

theorem BalInvL_step {d d' : Data} (h : Step d d') (hI : BalInvL d.stokvels) :
    BalInvL d'.stokvels := by
  cases h with
  | reg hashp u p =>
    unfold register_user
    split <;> exact hI
  | login hashp u p =>
    unfold login_user
    split
    · split <;> exact hI
    · exact hI
  | create n u ck =>
    unfold create_stokvel
    split
    · exact hI
    · split <;>
        exact BalInvL_setA _ _ _ hI (by simp [sumAmounts])
  | join n u =>
    unfold join_stokvel
    split
    · exact hI
    · rename_i s hs
      split
      · exact hI
      · split <;> exact BalInvL_setA _ _ _ hI (hI n s hs)
  | contrib n a u ck =>
    unfold contribute
    split
    · exact hI
    · rename_i s hs
      split
      · split <;>
          exact BalInvL_setA _ _ _ hI (by simp [sumAmounts_append, hI n s hs])
      · exact hI

theorem refOkB_fresh (st : List (String × Stokvel)) (n : String) (s1 : Stokvel)
    (hfresh : getA st n = none) (u m : String) (h : refOkB st u m = true) :
    refOkB (setA st n s1) u m = true := by
  rw [refOkB_setA]
  split
  · rename_i hnm
    subst hnm
    rw [refOkB_eq_true_iff] at h
    obtain ⟨s', hs', _⟩ := h
    rw [hfresh] at hs'
    cases hs'
  · exact h

theorem refOkB_grow (st : List (String × Stokvel)) (n : String) (s s1 : Stokvel)
    (hs : getA st n = some s) (hsub : ∀ x, x ∈ s.members → x ∈ s1.members)
    (u m : String) (h : refOkB st u m = true) : refOkB (setA st n s1) u m = true := by
  rw [refOkB_setA]
  split
  · rename_i hnm
    subst hnm
    rw [refOkB_eq_true_iff] at h
    obtain ⟨s', hs', hmem⟩ := h
    rw [hs] at hs'
    cases hs'
    simpa using hsub _ hmem
  · exact h

theorem refOkB_setA_self (st : List (String × Stokvel)) (n : String) (s1 : Stokvel)
    (u : String) (hu : u ∈ s1.members) : refOkB (setA st n s1) u n = true := by
  rw [refOkB_setA]
  simp [hu]

theorem RefInv_step {d d' : Data} (h : Step d d') (hI : RefInv d) : RefInv d' := by
  cases h with
  | reg hashp u p =>
    unfold register_user
    split
    · exact hI
    · simp only [OpResult.state]
      intro v usr hv m hm
      rw [getA_setA] at hv
      split at hv
      · cases hv
        simp at hm
      · exact hI v usr hv m hm
  | login hashp u p =>
    unfold login_user
    split
    · split <;> exact hI
    · exact hI
  | create n u ck =>
    unfold create_stokvel
    split
    · exact hI
    · rename_i hfresh
      split
      · simp only [OpResult.state]
        intro v usr hv m hm
        exact refOkB_fresh _ _ _ hfresh _ _ (hI v usr hv m hm)
      · rename_i u0 hu0
        simp only [OpResult.state]
        intro v usr hv m hm
        rw [getA_setA] at hv
        by_cases hvu : u = v
        · subst hvu
          rw [if_pos rfl] at hv
          cases hv
          rcases List.mem_append.mp hm with hm0 | hm1
          · exact refOkB_fresh _ _ _ hfresh _ _ (hI u u0 hu0 m hm0)
          · have hmn : m = n := by simpa using hm1
            subst hmn
            exact refOkB_setA_self _ _ _ _ (by simp)
        · rw [if_neg hvu] at hv
          exact refOkB_fresh _ _ _ hfresh _ _ (hI v usr hv m hm)
  | join n u =>
    unfold join_stokvel
    split
    · exact hI
    · rename_i s hs
      split
      · exact hI
      · split
        · simp only [OpResult.state]
          intro v usr hv m hm
          exact refOkB_grow _ _ _ _ hs (fun x hx => List.mem_append_left _ hx) _ _
            (hI v usr hv m hm)
        · rename_i u0 hu0
          simp only [OpResult.state]
          intro v usr hv m hm
          rw [getA_setA] at hv
          by_cases hvu : u = v
          · subst hvu
            rw [if_pos rfl] at hv
            cases hv
            rcases List.mem_append.mp hm with hm0 | hm1
            · exact refOkB_grow _ _ _ _ hs (fun x hx => List.mem_append_left _ hx) _ _
                (hI u u0 hu0 m hm0)
            · have hmn : m = n := by simpa using hm1
              subst hmn
              exact refOkB_setA_self _ _ _ _ (by simp)
          · rw [if_neg hvu] at hv
            exact refOkB_grow _ _ _ _ hs (fun x hx => List.mem_append_left _ hx) _ _
              (hI v usr hv m hm)
  | contrib n a u ck =>
    unfold contribute
    split
    · exact hI
    · rename_i s hs
      split
      · split
        · simp only [OpResult.state]
          intro v usr hv m hm
          exact refOkB_grow d.stokvels n s
            ⟨s.members, s.contributions ++ [⟨u, a, ck.iso⟩], s.balance + a,
             s.created_date, s.created_by⟩ hs (fun x hx => hx) v m (hI v usr hv m hm)
        · rename_i u0 hu0
          simp only [OpResult.state]
          intro v usr hv m hm
          rw [getA_setA] at hv
          by_cases hvu : u = v
          · subst hvu
            rw [if_pos rfl] at hv
            cases hv
            exact refOkB_grow d.stokvels n s
              ⟨s.members, s.contributions ++ [⟨u, a, ck.iso⟩], s.balance + a,
               s.created_date, s.created_by⟩ hs (fun x hx => hx) u m (hI u u0 hu0 m hm)
          · rw [if_neg hvu] at hv
            exact refOkB_grow d.stokvels n s
              ⟨s.members, s.contributions ++ [⟨u, a, ck.iso⟩], s.balance + a,
               s.created_date, s.created_by⟩ hs (fun x hx => hx) v m (hI v usr hv m hm)
      · exact hI

theorem ZeroBal_step {d d' : Data} (h : Step d d') (hI : ZeroBal d.users) :
    ZeroBal d'.users := by
  cases h with
  | reg hashp u p =>
    unfold register_user
    split
    · exact hI
    · exact ZeroBal_setA _ _ _ hI rfl
  | login hashp u p =>
    unfold login_user
    split
    · split <;> exact hI
    · exact hI
  | create n u ck =>
    unfold create_stokvel
    split
    · exact hI
    · split
      · exact hI
      · rename_i u0 hu0
        exact ZeroBal_setA _ _ _ hI (hI u u0 hu0)
  | join n u =>
    unfold join_stokvel
    split
    · exact hI
    · split
      · exact hI
      · split
        · exact hI
        · rename_i u0 hu0
          exact ZeroBal_setA _ _ _ hI (hI u u0 hu0)
  | contrib n a u ck =>
    unfold contribute
    split
    · exact hI
    · split
      · split
        · exact hI
        · rename_i u0 hu0
          exact ZeroBal_setA _ _ _ hI (hI u u0 hu0)
      · exact hI

theorem BalInv_reachable (d : Data) (h : Reachable d) : BalInvL d.stokvels := by
  induction h with
  | refl => intro n s hs; simp [emptyData, getA] at hs
  | tail _ hbc ih => exact BalInvL_step hbc ih

theorem RefInv_reachable (d : Data) (h : Reachable d) : RefInv d := by
  induction h with
  | refl => intro u usr hu; simp [emptyData, getA] at hu
  | tail _ hbc ih => exact RefInv_step hbc ih

theorem ZeroBal_reachable (d : Data) (h : Reachable d) : ZeroBal d.users := by
  induction h with
  | refl => intro u usr hu; simp [emptyData, getA] at hu
  | tail _ hbc ih => exact ZeroBal_step hbc ih

/-- C3: in every state reachable from the empty state by register_user,
login_user, create_stokvel, join_stokvel and contribute (with arbitrary
arguments), every stokvel's balance field equals the sum of the amounts in
its contributions sequence, and for every existing stokvel
get_stokvel_summary reports total_contributions equal to balance. -/
theorem reachable_balance_eq_contributions (d : Data) (h : Reachable d) :
    BalInvL d.stokvels ∧
      ∀ n sm, get_stokvel_summary d n = some sm → sm.total_contributions = sm.balance := by
  have hB := BalInv_reachable d h
  refine ⟨hB, ?_⟩
  intro n sm hsm
  unfold get_stokvel_summary at hsm
  split at hsm
  · cases hsm
  · rename_i s hg
    cases hsm
    exact (hB n s hg).symm

/-- C4: in every state reachable from the empty state by any sequence of
registry operations, every stokvel name in a registered user's stokvel set
names an existing stokvel of which that user is a member — no operation
ever creates an orphaned reference. -/
theorem reachable_referential_consistency (d : Data) (h : Reachable d) :
    ∀ u usr, getA d.users u = some usr →
      ∀ n, n ∈ usr.stokvels → refOkB d.stokvels u n = true :=
  RefInv_reachable d h

/-- C10: no core operation ever modifies a user's personal balance field:
in every state reachable from the empty state by any sequence of core
operations, every registered user's balance is still 0 (register_user
initialises it to 0 and nothing else touches it; update_user_balance is
invoked by no core operation). -/
theorem reachable_user_balance_zero (d : Data) (h : Reachable d) :
    ∀ u usr, getA d.users u = some usr → usr.balance = 0 :=
  ZeroBal_reachable d h

/-- A concrete injective stand-in for the hash primitive. -/
def hW : String → String := fun s => "#" ++ s

def ckW : Clock := ⟨"T", "D"⟩

def dW1 : Data := (register_user hW emptyData "alice" "pw1").state

def dW2 : Data := (create_stokvel dW1 "circle" "alice" ckW).state

def dW3 : Data := (contribute dW2 "circle" 100 "alice" ckW).state

theorem reachable_dW3 : Reachable dW3 :=
  Relation.ReflTransGen.tail
    (Relation.ReflTransGen.tail
      (Relation.ReflTransGen.tail Relation.ReflTransGen.refl
        (Step.reg hW "alice" "pw1" emptyData))
      (Step.create "circle" "alice" ckW dW1))
    (Step.contrib "circle" 100 "alice" ckW dW2)

def txW : String := "Contributed R" ++ fmt2 100 ++ " to " ++ "circle" ++ " on " ++ "D"

def uW3 : User := ⟨"#pw1", 0, [txW], ["circle"]⟩

def smW : Summary := ⟨"circle", 0 + 100, sumAmounts [⟨"alice", 100, "T"⟩], 1, ["alice"], "T", "alice"⟩

/-- C3 witness: the invariant evaluated in the concrete reachable state
after register, create and a 100-unit contribution. -/
theorem reachable_balance_eq_contributions_witness :
    get_stokvel_summary dW3 "circle" = some smW ∧ smW.total_contributions = smW.balance :=
  ⟨rfl, (reachable_balance_eq_contributions dW3 reachable_dW3).2 "circle" smW rfl⟩

/-- C4 witness: referential consistency evaluated in the concrete reachable
state after register, create and contribute. -/
theorem reachable_referential_consistency_witness :
    getA dW3.users "alice" = some uW3 ∧ "circle" ∈ uW3.stokvels ∧
      refOkB dW3.stokvels "alice" "circle" = true :=
  ⟨rfl, by decide,
    reachable_referential_consistency dW3 reachable_dW3 "alice" uW3 rfl "circle" (by decide)⟩

/-- C10 witness: the registered user's balance is still 0 in the concrete
reachable state after register, create and contribute. -/
theorem reachable_user_balance_zero_witness :
    getA dW3.users "alice" = some uW3 ∧ uW3.balance = 0 :=
  ⟨rfl, reachable_user_balance_zero dW3 reachable_dW3 "alice" uW3 rfl⟩

/-- C5: register_user fails (with the duplicate-username failure, leaving
the state unchanged and unsaved) iff the username already exists; on a
fresh username it creates a user whose stored credential is the hash of
the password, with zero balance, empty transaction list and empty stokvel
set, and persists; and a register immediately followed by a register of
the same username fails on the second call for every second password. -/
theorem register_user_spec (hashp hashp2 : String → String) (d : Data) (u p p2 : String) :
    ((register_user hashp d u p).success = false ↔ (getA d.users u).isSome = true)
    ∧ ((getA d.users u).isSome = true →
        register_user hashp d u p = .ok false "Username already exists!" d false)
    ∧ (getA d.users u = none →
        register_user hashp d u p =
          .ok true ("User " ++ u ++ " registered successfully!")
            ⟨setA d.users u ⟨hashp p, 0, [], []⟩, d.stokvels⟩ true)
    ∧ (register_user hashp2 (register_user hashp d u p).state u p2).success = false := by
  cases hu : getA d.users u with
  | some usr =>
    refine ⟨?_, ?_, ?_, ?_⟩ <;>
      simp [register_user, hu, OpResult.success, OpResult.state]
  | none =>
    have hget : getA (setA d.users u ⟨hashp p, 0, [], []⟩) u = some ⟨hashp p, 0, [], []⟩ := by
      rw [getA_setA]
      simp
    refine ⟨?_, ?_, ?_, ?_⟩
    · simp [register_user, hu, OpResult.success]
    · simp [hu]
    · intro _
      simp [register_user, hu]
    · simp [register_user, hu, OpResult.state, hget, OpResult.success]

/-- C6: login_user never mutates the state and never persists; an absent
username and a password-hash mismatch both yield the identical
"Invalid credentials." failure; and (for a collision-free hash) against a
stored credential hashp p0, login succeeds iff the supplied password is
p0. -/
theorem login_user_spec (hashp : String → String) (hinj : Function.Injective hashp)
    (d : Data) (u p p0 : String) :
    ((login_user hashp d u p).state = d ∧ (login_user hashp d u p).saved = false
      ∧ (login_user hashp d u p).isOk = true)
    ∧ (getA d.users u = none → login_user hashp d u p = .ok false "Invalid credentials." d false)
    ∧ (∀ usr, getA d.users u = some usr → hashp p ≠ usr.password →
        login_user hashp d u p = .ok false "Invalid credentials." d false)
    ∧ (∀ usr, getA d.users u = some usr → usr.password = hashp p0 →
        ((login_user hashp d u p).success = true ↔ p = p0)) := by
  cases hu : getA d.users u with
  | none =>
    refine ⟨?_, ?_, ?_, ?_⟩ <;>
      simp [login_user, hu, OpResult.state, OpResult.saved, OpResult.isOk]
  | some usr0 =>
    by_cases hv : verify_password hashp p usr0.password
    · have hpw : hashp p = usr0.password := by
        simpa [verify_password] using hv
      refine ⟨?_, ?_, ?_, ?_⟩
      · simp [login_user, hu, hv, OpResult.state, OpResult.saved, OpResult.isOk]
      · simp [hu]
      · intro usr husr
        cases husr
        intro hne
        exact absurd hpw hne
      · intro usr husr hstored
        cases husr
        simp only [login_user, hu, hv, if_pos, OpResult.success]
        constructor
        · intro _
          exact hinj (by rw [hpw, hstored])
        · intro _
          trivial
    · refine ⟨?_, ?_, ?_, ?_⟩
      · simp [login_user, hu, hv, OpResult.state, OpResult.saved, OpResult.isOk]
      · simp [hu]
      · intro usr husr
        cases husr
        intro _
        simp [login_user, hu, hv]
      · intro usr husr hstored
        cases husr
        simp only [login_user, hu, hv, if_neg, OpResult.success]
        constructor
        · intro hfalse
          cases hfalse
        · intro hpp0
          subst hpp0
          exact absurd (by simp [verify_password, hstored]) hv

/-- C5 witness: registering a fresh username stores the hashed password
with zero balance, empty transactions and empty stokvel set, and saves. -/
theorem register_user_spec_witness :
    getA emptyData.users "alice" = none
    ∧ register_user hW emptyData "alice" "pw1" =
        .ok true ("User " ++ "alice" ++ " registered successfully!")
          ⟨setA emptyData.users "alice" ⟨hW "pw1", 0, [], []⟩, emptyData.stokvels⟩ true :=
  ⟨rfl, (register_user_spec hW hW emptyData "alice" "pw1" "pw2").2.2.1 rfl⟩

def dL : Data := ⟨[("alice", ⟨"pw1", 0, [], []⟩)], []⟩

def uL : User := ⟨"pw1", 0, [], []⟩

/-- C6 witness: with the identity as (injective) hash stand-in, logging in
with the registration password succeeds. -/
theorem login_user_spec_witness :
    getA dL.users "alice" = some uL
    ∧ (login_user (fun s => s) dL "alice" "pw1").success = true :=
  ⟨rfl,
    ((login_user_spec (fun s => s) (fun _ _ h => h) dL "alice" "pw1" "pw1").2.2.2
        uL rfl rfl).mpr rfl⟩

/-- C7: for a registered creator, create_stokvel fails (unchanged and
unsaved) iff the name already exists; on a fresh name it creates the
stokvel with member list exactly the creator, balance 0, no
contributions, the creation timestamp and creator recorded, adds the name
to the creator's stokvel set and persists; and the summary immediately
afterwards reports member_count 1 with the creator in the member list. -/
theorem create_stokvel_spec (d : Data) (n c : String) (ck : Clock) (cu : User)
    (hreg : getA d.users c = some cu) :
    ((create_stokvel d n c ck).success = true ↔ getA d.stokvels n = none)
    ∧ ((getA d.stokvels n).isSome = true →
        create_stokvel d n c ck = .ok false "Stokvel already exists!" d false)
    ∧ (getA d.stokvels n = none →
        create_stokvel d n c ck =
          .ok true ("Stokvel \x27" ++ n ++ "\x27 created and you have joined it!")
            ⟨setA d.users c { cu with stokvels := cu.stokvels ++ [n] },
             setA d.stokvels n ⟨[c], [], 0, ck.iso, c⟩⟩ true
        ∧ get_stokvel_summary (create_stokvel d n c ck).state n =
            some ⟨n, 0, 0, 1, [c], ck.iso, c⟩) := by
  cases hn : getA d.stokvels n with
  | some s =>
    refine ⟨?_, ?_, ?_⟩ <;>
      simp [create_stokvel, hn, OpResult.success]
  | none =>
    have heq : create_stokvel d n c ck =
        .ok true ("Stokvel \x27" ++ n ++ "\x27 created and you have joined it!")
          ⟨setA d.users c { cu with stokvels := cu.stokvels ++ [n] },
           setA d.stokvels n ⟨[c], [], 0, ck.iso, c⟩⟩ true := by
      simp [create_stokvel, hn, hreg]
    refine ⟨?_, ?_, ?_⟩
    · simp [heq, OpResult.success]
    · simp
    · intro _
      refine ⟨heq, ?_⟩
      rw [heq]
      simp [get_stokvel_summary, OpResult.state, getA_setA, sumAmounts]

/-- C7 witness: creating a fresh stokvel from the one-user state. -/
theorem create_stokvel_spec_witness :
    getA dL.users "alice" = some uL
    ∧ getA dL.stokvels "circle" = none
    ∧ get_stokvel_summary (create_stokvel dL "circle" "alice" ckW).state "circle" =
        some ⟨"circle", 0, 0, 1, ["alice"], ckW.iso, "alice"⟩ :=
  ⟨rfl, rfl, ((create_stokvel_spec dL "circle" "alice" ckW uL rfl).2.2 rfl).2⟩

/-- C8 (amended: the contributing member must also be a registered user):
for an existing stokvel, a registered member and a positive amount,
contribute returns success with the confirmation message, increases the
stokvel's balance by exactly the amount, appends exactly one contribution
record (user, amount, timestamp) and exactly one formatted transaction
string (append-only), persists, and leaves every other stokvel and every
other user unchanged. -/
theorem contribute_spec (d : Data) (n u : String) (a : Rat) (ck : Clock)
    (s : Stokvel) (usr : User)
    (hs : getA d.stokvels n = some s) (hm : u ∈ s.members)
    (hu : getA d.users u = some usr) (ha : 0 < a) :
    contribute d n a u ck =
      .ok true ("You contributed R" ++ fmt2 a ++ " to " ++ n ++ ".")
        ⟨setA d.users u { usr with transactions := usr.transactions ++
            ["Contributed R" ++ fmt2 a ++ " to " ++ n ++ " on " ++ ck.display] },
         setA d.stokvels n
           { s with balance := s.balance + a,
                    contributions := s.contributions ++ [⟨u, a, ck.iso⟩] }⟩ true
    ∧ (∀ m, m ≠ n → getA (contribute d n a u ck).state.stokvels m = getA d.stokvels m)
    ∧ (∀ v, v ≠ u → getA (contribute d n a u ck).state.users v = getA d.users v) := by
  have heq : contribute d n a u ck =
      .ok true ("You contributed R" ++ fmt2 a ++ " to " ++ n ++ ".")
        ⟨setA d.users u { usr with transactions := usr.transactions ++
            ["Contributed R" ++ fmt2 a ++ " to " ++ n ++ " on " ++ ck.display] },
         setA d.stokvels n
           { s with balance := s.balance + a,
                    contributions := s.contributions ++ [⟨u, a, ck.iso⟩] }⟩ true := by
    simp [contribute, hs, hm, hu]
  refine ⟨heq, ?_, ?_⟩
  · intro m hmn
    rw [heq]
    simp only [OpResult.state]
    rw [getA_setA, if_neg (fun h => hmn h.symm)]
  · intro v hvu
    rw [heq]
    simp only [OpResult.state]
    rw [getA_setA, if_neg (fun h => hvu h.symm)]

def dM : Data := ⟨[("alice", ⟨"pw1", 0, [], []⟩)],
                  [("circle", ⟨["alice"], [], 0, "T0", "alice"⟩)]⟩

def svM : Stokvel := ⟨["alice"], [], 0, "T0", "alice"⟩

/-- C8 witness: a registered member contributing 10 to an existing
stokvel. -/
theorem contribute_spec_witness :
    (0 : Rat) < 10
    ∧ contribute dM "circle" 10 "alice" ckW =
        .ok true ("You contributed R" ++ fmt2 10 ++ " to " ++ "circle" ++ ".")
          ⟨setA dM.users "alice" { uL with transactions := uL.transactions ++
              ["Contributed R" ++ fmt2 10 ++ " to " ++ "circle" ++ " on " ++ ckW.display] },
           setA dM.stokvels "circle"
             { svM with balance := svM.balance + 10,
                        contributions := svM.contributions ++ [⟨"alice", 10, ckW.iso⟩] }⟩ true :=
  ⟨by norm_num,
    (contribute_spec dM "circle" "alice" 10 ckW svM uL rfl (by decide) rfl (by norm_num)).1⟩

/-- C9 (amended: when the joining username is itself registered, the
outcome is always an explicit result value): join_stokvel fails with the
not-found failure when the stokvel is absent and with the already-member
failure when the username is already a member (both leaving the state
unchanged and unsaved); otherwise, for a registered username, it appends
the username to the member list and the stokvel name to the user's
stokvel set and persists.  With an unregistered username the otherwise
branch instead raises an uncaught KeyError (see the counterexample). -/
theorem join_stokvel_spec (d : Data) (n u : String) :
    (getA d.stokvels n = none → join_stokvel d n u = .ok false "Stokvel not found." d false)
    ∧ (∀ s, getA d.stokvels n = some s → u ∈ s.members →
        join_stokvel d n u = .ok false "You are already a member of this stokvel." d false)
    ∧ (∀ s usr, getA d.stokvels n = some s → u ∉ s.members → getA d.users u = some usr →
        join_stokvel d n u =
          .ok true ("You have joined " ++ n ++ "!")
            ⟨setA d.users u { usr with stokvels := usr.stokvels ++ [n] },
             setA d.stokvels n { s with members := s.members ++ [u] }⟩ true)
    ∧ ((getA d.users u).isSome = true → (join_stokvel d n u).isOk = true) := by
  refine ⟨?_, ?_, ?_, ?_⟩
  · intro hn
    simp [join_stokvel, hn]
  · intro s hn hmem
    simp [join_stokvel, hn, hmem]
  · intro s usr hn hmem hu
    simp [join_stokvel, hn, hmem, hu]
  · intro hu
    cases hn : getA d.stokvels n with
    | none => simp [join_stokvel, hn, OpResult.isOk]
    | some s =>
      by_cases hmem : u ∈ s.members
      · simp [join_stokvel, hn, hmem, OpResult.isOk]
      · cases hu2 : getA d.users u with
        | none => rw [hu2] at hu; cases hu
        | some usr => simp [join_stokvel, hn, hmem, hu2, OpResult.isOk]

def dJ : Data := ⟨[("bob", ⟨"pw2", 0, [], []⟩)],
                  [("circle", ⟨["alice"], [], 0, "T0", "alice"⟩)]⟩

def uJ : User := ⟨"pw2", 0, [], []⟩

def svJ : Stokvel := ⟨["alice"], [], 0, "T0", "alice"⟩

/-- C9 witness: a registered non-member joining an existing stokvel. -/
theorem join_stokvel_spec_witness :
    "bob" ∉ svJ.members
    ∧ join_stokvel dJ "circle" "bob" =
        .ok true ("You have joined " ++ "circle" ++ "!")
          ⟨setA dJ.users "bob" { uJ with stokvels := uJ.stokvels ++ ["circle"] },
           setA dJ.stokvels "circle" { svJ with members := svJ.members ++ ["bob"] }⟩ true :=
  ⟨by decide, (join_stokvel_spec dJ "circle" "bob").2.2.1 svJ uJ rfl (by decide) rfl⟩

/-- An operation call on starting state `d` that either fully applies and
persists, or fails as an explicit result leaving the state exactly as it
was, never an uncaught fault. -/
def Atomic (d : Data) (r : OpResult) : Prop :=
  r.isOk = true ∧ (r.success = true → r.saved = true)
    ∧ (r.success = false → r.state = d ∧ r.saved = false)

/-- C2 (amended: for create_stokvel, join_stokvel and contribute the acting
username must be registered): every registry operation either fully
applies its mutation and persists, or returns an explicit failure leaving
the state exactly as before, with nothing saved; register_user satisfies
this unconditionally.  With an unregistered acting username the other
three operations can instead partially mutate the state and raise an
uncaught KeyError (see the counterexample). -/
theorem registry_atomicity (hashp : String → String) (d : Data) (u p n : String)
    (a : Rat) (ck : Clock) :
    Atomic d (register_user hashp d u p)
    ∧ ((getA d.users u).isSome = true → Atomic d (create_stokvel d n u ck))
    ∧ ((getA d.users u).isSome = true → Atomic d (join_stokvel d n u))
    ∧ ((getA d.users u).isSome = true → Atomic d (contribute d n a u ck)) := by
  refine ⟨?_, ?_, ?_, ?_⟩
  · cases hu : getA d.users u <;>
      simp [register_user, hu, Atomic, OpResult.isOk, OpResult.success, OpResult.saved,
        OpResult.state]
  · intro hu
    cases hu2 : getA d.users u with
    | none => rw [hu2] at hu; cases hu
    | some usr =>
      cases hn : getA d.stokvels n <;>
        simp [create_stokvel, hn, hu2, Atomic, OpResult.isOk, OpResult.success,
          OpResult.saved, OpResult.state]
  · intro hu
    cases hu2 : getA d.users u with
    | none => rw [hu2] at hu; cases hu
    | some usr =>
      cases hn : getA d.stokvels n with
      | none =>
        simp [join_stokvel, hn, Atomic, OpResult.isOk, OpResult.success, OpResult.saved,
          OpResult.state]
      | some s =>
        by_cases hmem : u ∈ s.members <;>
          simp [join_stokvel, hn, hmem, hu2, Atomic, OpResult.isOk, OpResult.success,
            OpResult.saved, OpResult.state]
  · intro hu
    cases hu2 : getA d.users u with
    | none => rw [hu2] at hu; cases hu
    | some usr =>
      cases hn : getA d.stokvels n with
      | none =>
        simp [contribute, hn, Atomic, OpResult.isOk, OpResult.success, OpResult.saved,
          OpResult.state]
      | some s =>
        by_cases hmem : u ∈ s.members <;>
          simp [contribute, hn, hmem, hu2, Atomic, OpResult.isOk, OpResult.success,
            OpResult.saved, OpResult.state]

/-- C2 witness: a registered user contributing to an existing stokvel is
atomic. -/
theorem registry_atomicity_witness :
    (getA dM.users "alice").isSome = true
    ∧ Atomic dM (contribute dM "circle" 10 "alice" ckW) :=
  ⟨rfl, (registry_atomicity hW dM "alice" "p" "circle" 10 ckW).2.2.2 rfl⟩

def dB2 : Data := ⟨[("alice", ⟨"h", 0, [], []⟩)], []⟩

/-- C2 counterexample: create_stokvel called with an unregistered creator
on a state with no stokvels inserts the stokvel, then raises an uncaught
KeyError — the state after the call differs from the state before, yet
nothing was persisted, so the operation neither fully applied nor left
the state unchanged. -/
theorem create_stokvel_partial_mutation :
    (create_stokvel dB2 "circle" "ghost" ckW).isOk = false
    ∧ (create_stokvel dB2 "circle" "ghost" ckW).state ≠ dB2
    ∧ (create_stokvel dB2 "circle" "ghost" ckW).saved = false := by
  refine ⟨rfl, ?_, rfl⟩
  intro h
  have h1 : getA (create_stokvel dB2 "circle" "ghost" ckW).state.stokvels "circle" =
      some ⟨["ghost"], [], 0, ckW.iso, "ghost"⟩ := rfl
  rw [h] at h1
  simp [dB2, getA] at h1

def dB : Data := ⟨[("alice", ⟨"h", 0, [], []⟩)],
                  [("circle", ⟨["alice"], [⟨"alice", 100, "T0"⟩], 100, "T0", "alice"⟩)]⟩

/-- C1: the code accepts a non-positive contribution.  In a state where
stokvel "circle" has balance 100, the registered member "alice"
contributing -50 is reported as a success and the balance drops to 50 —
the source of contribute has no amount check at all, so the claimed
InvalidAmount rejection does not happen and the balance changes. -/
theorem contribute_accepts_nonpositive_amount :
    (-50 : Rat) ≤ 0
    ∧ (contribute dB "circle" (-50) "alice" ckW).success = true
    ∧ (contribute dB "circle" (-50) "alice" ckW).saved = true
    ∧ (getA (contribute dB "circle" (-50) "alice" ckW).state.stokvels "circle").map
        Stokvel.balance = some 50 := by
  refine ⟨by norm_num, rfl, rfl, ?_⟩
  have h : (getA (contribute dB "circle" (-50 : Rat) "alice" ckW).state.stokvels "circle").map
      Stokvel.balance = some ((100 : Rat) + (-50)) := rfl
  rw [h]
  norm_num

def dB8 : Data := ⟨[], [("circle", ⟨["ghost"], [], 0, "T0", "ghost"⟩)]⟩

/-- C8 counterexample: in a state where "ghost" is a member of the existing
stokvel "circle" but is not a registered user, a positive contribution
does not return success, persists nothing, and is an uncaught KeyError
rather than a normal return. -/
theorem contribute_unregistered_member_faults :
    getA dB8.stokvels "circle" = some ⟨["ghost"], [], 0, "T0", "ghost"⟩
    ∧ "ghost" ∈ (⟨["ghost"], [], 0, "T0", "ghost"⟩ : Stokvel).members
    ∧ (0 : Rat) < 10
    ∧ (contribute dB8 "circle" 10 "ghost" ckW).success = false
    ∧ (contribute dB8 "circle" 10 "ghost" ckW).saved = false
    ∧ (contribute dB8 "circle" 10 "ghost" ckW).isOk = false := by
  refine ⟨rfl, by decide, by norm_num, rfl, rfl, rfl⟩

def dB9 : Data := ⟨[], [("circle", ⟨["alice"], [], 0, "T0", "alice"⟩)]⟩

/-- C9 counterexample: join_stokvel with an unregistered username on an
existing stokvel it is not a member of does not return an explicit result
value — it raises an uncaught KeyError, after having already appended the
username to the member list. -/
theorem join_stokvel_uncaught_fault :
    (join_stokvel dB9 "circle" "ghost").isOk = false
    ∧ (join_stokvel dB9 "circle" "ghost").state ≠ dB9 := by
  refine ⟨rfl, ?_⟩
  intro h
  have h1 : getA (join_stokvel dB9 "circle" "ghost").state.stokvels "circle" =
      some ⟨["alice"] ++ ["ghost"], [], 0, "T0", "alice"⟩ := rfl
  rw [h] at h1
  simp [dB9, getA] at h1

end Stokwell
